import Mathlib

/-!
Shallow Lean embedding of the lending-library core in `demo-updated.py`:
the `MemberAccount` ledger, the `LoanItem` hierarchy, the fee policies
`StandardPolicy` / `ChildrenPolicy`, and the `Library` orchestrator
(`checkout`, `return_item`, `list_loans`).

Modelling conventions:
* Python floats carrying money amounts are modelled as rationals (ℚ);
  every amount appearing in the claims is exactly representable.
* Python object identity (classes without a custom `__eq__`, so `in` /
  `list.remove` compare by `is`) is modelled by an explicit object id
  field `oid : Nat`; two values denote the same Python object iff their
  `oid`s coincide.
* `Notifier` / `PaymentGateway` are pure side-effect ports (printing);
  they do not touch the state the claims are about and are elided.
* Python's `round(x, 2)` rounds half to even; `round2` reproduces it.
-/

/-- Round half to even (banker's rounding), as Python's `round` on the
exact value.  The fractional part `r = q - ⌊q⌋ = (num - ⌊q⌋·den)/den` is
compared with `1/2` through the integer `2·(num - ⌊q⌋·den)` versus
`den`, keeping the whole computation in ℤ. -/
def roundHalfEven (q : ℚ) : ℤ :=
  let f : ℤ := q.floor
  let twiceFrac : ℤ := 2 * (q.num - f * (q.den : ℤ))
  if twiceFrac < (q.den : ℤ) then f
  else if (q.den : ℤ) < twiceFrac then f + 1
  else if f % 2 = 0 then f else f + 1

/-- Python `round(x, 2)`. -/
def round2 (q : ℚ) : ℚ := (roundHalfEven (q * 100) : ℚ) / 100

/-- A `LoanItem` (abstract base class): `title`, `max_days`, plus the
result of the dynamically dispatched `late_fee_per_day()` of the
concrete subclass, and an object id `oid` modelling Python identity. -/
structure LoanItem where
  oid : Nat
  title : String
  max_days : Int
  late_fee_per_day : ℚ
deriving DecidableEq, Repr

/-- `class Book(LoanItem)`: `late_fee_per_day` returns `0.25`. -/
def Book (oid : Nat) (title : String) (max_days : Int) : LoanItem :=
  ⟨oid, title, max_days, 1/4⟩

/-- `class DVD(LoanItem)`: `late_fee_per_day` returns `0.75`. -/
def DVD (oid : Nat) (title : String) (max_days : Int) : LoanItem :=
  ⟨oid, title, max_days, 3/4⟩

/-- `MemberAccount`: `name` and the private `__balance` (here
`balancePriv`), initialised to `0.0`. -/
structure MemberAccount where
  name : String
  balancePriv : ℚ
deriving DecidableEq, Repr

/-- `MemberAccount.__init__(name)`. -/
def MemberAccount.new (name : String) : MemberAccount := ⟨name, 0⟩

/-- `add_charge(amount)`: `if amount > 0: self.__balance += amount`. -/
def MemberAccount.add_charge (m : MemberAccount) (amount : ℚ) : MemberAccount :=
  if amount > 0 then { m with balancePriv := m.balancePriv + amount } else m

/-- `pay(amount)`: `if 0 < amount <= self.__balance: self.__balance -=
amount; return True` else `return False`.  Returns the updated account
and the boolean result. -/
def MemberAccount.pay (m : MemberAccount) (amount : ℚ) : MemberAccount × Bool :=
  if 0 < amount ∧ amount ≤ m.balancePriv then
    ({ m with balancePriv := m.balancePriv - amount }, true)
  else (m, false)

/-- `balance()`: `return round(self.__balance, 2)`. -/
def MemberAccount.balance (m : MemberAccount) : ℚ := round2 m.balancePriv

/-- `StandardPolicy.compute_fee(item, days_late)`. -/
def StandardPolicy.compute_fee (item : LoanItem) (days_late : Int) : ℚ :=
  if days_late ≤ 0 then 0 else (days_late : ℚ) * item.late_fee_per_day

/-- `ChildrenPolicy.compute_fee(item, days_late)`: first two late days
free. -/
def ChildrenPolicy.compute_fee (item : LoanItem) (days_late : Int) : ℚ :=
  let days : Int := max 0 (days_late - 2)
  (days : ℚ) * item.late_fee_per_day

/-- The `LateFeePolicy` strategy held by a `Library` (the two concrete
policies of the source). -/
inductive LateFeePolicy
  | standard
  | children
deriving DecidableEq, Repr

/-- Dynamic dispatch of `policy.compute_fee`. -/
def LateFeePolicy.compute_fee : LateFeePolicy → LoanItem → Int → ℚ
  | .standard, item, d => StandardPolicy.compute_fee item d
  | .children, item, d => ChildrenPolicy.compute_fee item d

/-- Python identity comparison used by `item in items` / `items.remove`
(LoanItem defines no `__eq__`, so `==` is `is`). -/
def sameObject (a b : LoanItem) : Bool := a.oid == b.oid

/-- `list.remove(x)`: remove the first element identical to `x`. -/
def removeFirst (item : LoanItem) : List LoanItem → List LoanItem
  | [] => []
  | i :: rest => if sameObject i item then rest else i :: removeFirst item rest

/-- The loans dict `self._loans : member.name -> list of LoanItem`,
as an insertion-ordered association list. -/
abbrev LoansMap := List (String × List LoanItem)

/-- `self._loans.get(name, ...)` as an `Option`. -/
def getLoans : LoansMap → String → Option (List LoanItem)
  | [], _ => none
  | (k, v) :: rest, n => if k = n then some v else getLoans rest n

/-- Replace the list bound to `n` (the in-place mutation of the list the
dict already holds). -/
def setLoans : LoansMap → String → List LoanItem → LoansMap
  | [], _, _ => []
  | (k, v) :: rest, n, items =>
    if k = n then (k, items) :: rest else (k, v) :: setLoans rest n items

/-- `self._loans.setdefault(name, []).append(item)`. -/
def appendLoan : LoansMap → String → LoanItem → LoansMap
  | [], n, item => [(n, [item])]
  | (k, v) :: rest, n, item =>
    if k = n then (k, v ++ [item]) :: rest else (k, v) :: appendLoan rest n item

/-- The `Library` orchestrator state: the injected fee policy and the
loans dict.  The notifier and payment ports only print and are elided. -/
structure Library where
  policy : LateFeePolicy
  loans : LoansMap
deriving DecidableEq, Repr

/-- `Library.__init__`: empty loans dict. -/
def Library.new (policy : LateFeePolicy) : Library := ⟨policy, []⟩

/-- `checkout(member, item)`: append `item` to the member's loan list
(creating it if absent), then notify. -/
def Library.checkout (lib : Library) (member : MemberAccount) (item : LoanItem) :
    Library :=
  { lib with loans := appendLoan lib.loans member.name item }

/-- `return_item(member, item, days_late)`: `items =
self._loans.get(member.name, [])`; `if item in items:
items.remove(item)`; `fee = self.policy.compute_fee(item, days_late)`;
`if fee > 0: member.add_charge(fee)`.  Returns the updated library and
member. -/
def Library.return_item (lib : Library) (member : MemberAccount)
    (item : LoanItem) (days_late : Int) : Library × MemberAccount :=
  let items := (getLoans lib.loans member.name).getD []
  let lib' :=
    if items.any (fun i => sameObject i item) then
      { lib with loans := setLoans lib.loans member.name (removeFirst item items) }
    else lib
  let fee := lib.policy.compute_fee item days_late
  let member' := if fee > 0 then member.add_charge fee else member
  (lib', member')

/-- `list_loans(member)`: titles of the member's current loans, in
checkout order. -/
def Library.list_loans (lib : Library) (member : MemberAccount) : List String :=
  ((getLoans lib.loans member.name).getD []).map (fun i => i.title)

/-- One call in a sequence of `MemberAccount` operations. -/
inductive AccountOp
  | addCharge (amount : ℚ)
  | payOp (amount : ℚ)
deriving DecidableEq, Repr

/-- Apply one call to an account (the boolean result of `pay` is
discarded for state evolution). -/
def applyOp (m : MemberAccount) : AccountOp → MemberAccount
  | .addCharge a => m.add_charge a
  | .payOp a => (m.pay a).1

/-- Run a sequence of `add_charge` / `pay` calls. -/
def runOps (m : MemberAccount) : List AccountOp → MemberAccount
  | [] => m
  | op :: rest => runOps (applyOp m op) rest

/-! ### Helper lemmas -/

lemma ratFloor_eq_intFloor (q : ℚ) : q.floor = ⌊q⌋ :=
  (Rat.floor_def' q).trans Rat.floor_def.symm

lemma roundHalfEven_nonneg (q : ℚ) (h : 0 ≤ q) : 0 ≤ roundHalfEven q := by
  have hf : 0 ≤ q.floor := by
    rw [ratFloor_eq_intFloor]
    exact Int.floor_nonneg.mpr h
  simp only [roundHalfEven]
  split
  · exact hf
  · split
    · omega
    · split <;> omega

lemma round2_nonneg (q : ℚ) (h : 0 ≤ q) : 0 ≤ round2 q := by
  have h1 : (0 : ℤ) ≤ roundHalfEven (q * 100) := by
    refine roundHalfEven_nonneg _ ?_
    positivity
  have h2 : (0 : ℚ) ≤ (roundHalfEven (q * 100) : ℚ) := by exact_mod_cast h1
  simpa [round2] using div_nonneg h2 (by norm_num)

lemma roundHalfEven_intCast (z : ℤ) : roundHalfEven (z : ℚ) = z := by
  simp only [roundHalfEven]
  rw [ratFloor_eq_intFloor, Int.floor_intCast]
  have hn : ((z : ℚ)).num = z := Rat.num_intCast z
  have hd : ((z : ℚ)).den = 1 := Rat.den_intCast z
  rw [hn, hd]
  have hlt : 2 * (z - z * ((1 : ℕ) : ℤ)) < ((1 : ℕ) : ℤ) := by
    push_cast
    omega
  rw [if_pos hlt]

lemma add_charge_nonneg (m : MemberAccount) (a : ℚ) (h : 0 ≤ m.balancePriv) :
    0 ≤ (m.add_charge a).balancePriv := by
  simp only [MemberAccount.add_charge]
  split
  · rename_i ha
    dsimp only
    linarith
  · exact h

lemma pay_nonneg (m : MemberAccount) (a : ℚ) (h : 0 ≤ m.balancePriv) :
    0 ≤ (m.pay a).1.balancePriv := by
  simp only [MemberAccount.pay]
  split
  · rename_i ha
    dsimp only
    linarith [ha.2]
  · exact h

lemma applyOp_nonneg (m : MemberAccount) (op : AccountOp) (h : 0 ≤ m.balancePriv) :
    0 ≤ (applyOp m op).balancePriv := by
  cases op with
  | addCharge a => exact add_charge_nonneg m a h
  | payOp a => exact pay_nonneg m a h

lemma runOps_nonneg (ops : List AccountOp) (m : MemberAccount)
    (h : 0 ≤ m.balancePriv) : 0 ≤ (runOps m ops).balancePriv := by
  induction ops generalizing m with
  | nil => exact h
  | cons op rest ih => exact ih (applyOp m op) (applyOp_nonneg m op h)

/-! ### Claims -/

/-- C1: for every member and every sequence of `add_charge` / `pay`
calls with arbitrary (including negative or overlarge) amounts, the
balance reported by `balance()` is nonnegative after every call (every
such state is `runOps` of some operation list). -/
theorem c1_balance_never_negative (name : String) (ops : List AccountOp) :
    0 ≤ (runOps (MemberAccount.new name) ops).balance := by
  have h : 0 ≤ (runOps (MemberAccount.new name) ops).balancePriv :=
    runOps_nonneg ops (MemberAccount.new name) (le_refl 0)
  exact round2_nonneg _ h

/-- C2: `pay(amount)` succeeds and subtracts exactly `amount` iff
`0 < amount ≤ balance`; otherwise it returns false and leaves the
account unchanged. -/
theorem c2_pay_gate (m : MemberAccount) (a : ℚ) :
    (0 < a ∧ a ≤ m.balancePriv →
      m.pay a = ({ m with balancePriv := m.balancePriv - a }, true)) ∧
    (¬(0 < a ∧ a ≤ m.balancePriv) → m.pay a = (m, false)) := by
  constructor <;> intro h <;> simp [MemberAccount.pay, h]

/-- Witness for C2 at concrete inputs: paying 3 out of 5 succeeds and
leaves 2; paying 9 out of 5 fails and changes nothing. -/
theorem c2_pay_gate_witness :
    MemberAccount.pay ⟨"Eve", 5⟩ 3 = (⟨"Eve", 2⟩, true) ∧
    MemberAccount.pay ⟨"Eve", 5⟩ 9 = (⟨"Eve", 5⟩, false) := by
  constructor
  · have h := (c2_pay_gate ⟨"Eve", 5⟩ 3).1 (by norm_num)
    rw [h]
    norm_num
  · exact (c2_pay_gate ⟨"Eve", 5⟩ 9).2 (by norm_num)

/-- `return_item` written out as an explicit pair (zeta-reduced body). -/
lemma return_item_eq (lib : Library) (member : MemberAccount)
    (item : LoanItem) (d : Int) :
    lib.return_item member item d =
      (if ((getLoans lib.loans member.name).getD []).any
            (fun i => sameObject i item) then
         { lib with loans := (setLoans lib.loans member.name
             (removeFirst item ((getLoans lib.loans member.name).getD []))) }
       else lib,
       if lib.policy.compute_fee item d > 0 then
         member.add_charge (lib.policy.compute_fee item d)
       else member) := rfl

/-- `add_charge` never touches the member's name. -/
lemma add_charge_name (m : MemberAccount) (a : ℚ) :
    (m.add_charge a).name = m.name := by
  simp only [MemberAccount.add_charge]
  split <;> rfl

/-- The balance after `add_charge`, as a single conditional. -/
lemma add_charge_balancePriv (m : MemberAccount) (a : ℚ) :
    (m.add_charge a).balancePriv =
      if 0 < a then m.balancePriv + a else m.balancePriv := by
  simp only [MemberAccount.add_charge]
  split <;> rfl

/-- C3: `return_item` removes the first identical occurrence from the
member's loan list when one is present and leaves the list untouched
when none is; the policy fee is computed in either case and
`add_charge(fee)` is applied exactly when `fee > 0`, so the removal
outcome never depends on the fee outcome. -/
theorem c3_return_item_removal_and_fee (lib : Library) (member : MemberAccount)
    (item : LoanItem) (d : Int) :
    (lib.return_item member item d).1.loans =
      (if ((getLoans lib.loans member.name).getD []).any
            (fun i => sameObject i item) then
         setLoans lib.loans member.name
           (removeFirst item ((getLoans lib.loans member.name).getD []))
       else lib.loans) ∧
    (lib.return_item member item d).2.balancePriv =
      (if 0 < lib.policy.compute_fee item d then
         member.balancePriv + lib.policy.compute_fee item d
       else member.balancePriv) ∧
    (lib.return_item member item d).2.name = member.name := by
  rw [return_item_eq]
  refine ⟨?_, ?_, ?_⟩
  · dsimp only
    split <;> rfl
  · dsimp only
    split <;> rename_i h
    · rw [add_charge_balancePriv, if_pos h]
    · rfl
  · dsimp only
    split
    · exact add_charge_name _ _
    · rfl

/-- C4: `StandardPolicy.compute_fee` is total over ℤ: zero for
`days_late ≤ 0`, and `days_late * late_fee_per_day` for `days_late > 0`,
for every item. -/
theorem c4_standard_policy_total (item : LoanItem) (d : ℤ) :
    (d ≤ 0 → StandardPolicy.compute_fee item d = 0) ∧
    (0 < d → StandardPolicy.compute_fee item d = (d : ℚ) * item.late_fee_per_day) := by
  constructor <;> intro h
  · simp [StandardPolicy.compute_fee, h]
  · simp [StandardPolicy.compute_fee, not_le.mpr h]

/-- Witness for C4: a five-days-early return is free, a three-days-late
book costs three quarter-units. -/
theorem c4_standard_policy_total_witness :
    StandardPolicy.compute_fee (Book 0 "B" 14) (-5) = 0 ∧
    StandardPolicy.compute_fee (Book 0 "B" 14) 3 = 3/4 := by
  constructor
  · exact (c4_standard_policy_total (Book 0 "B" 14) (-5)).1 (by norm_num)
  · have h := (c4_standard_policy_total (Book 0 "B" 14) 3).2 (by norm_num)
    rw [h]
    norm_num [Book]

/-- C5: the children policy equals the standard policy applied to
`max 0 (days_late - 2)`. -/
theorem c5_children_eq_standard_shifted (item : LoanItem) (d : ℤ) :
    ChildrenPolicy.compute_fee item d =
      StandardPolicy.compute_fee item (max 0 (d - 2)) := by
  by_cases h : d ≤ 2
  · have h1 : max 0 (d - 2) = 0 := by omega
    simp [ChildrenPolicy.compute_fee, StandardPolicy.compute_fee, h1]
  · have h1 : max 0 (d - 2) = d - 2 := by omega
    have h2 : ¬ (d - 2 ≤ 0) := by omega
    simp [ChildrenPolicy.compute_fee, StandardPolicy.compute_fee, h1, h2]

/-- C6: `add_charge(a)` adds exactly `a` when `a > 0` and is a silent
no-op (identical state, no error) when `a ≤ 0`. -/
theorem c6_add_charge_spec (m : MemberAccount) (a : ℚ) :
    (0 < a → m.add_charge a = { m with balancePriv := m.balancePriv + a }) ∧
    (a ≤ 0 → m.add_charge a = m) := by
  constructor <;> intro h
  · simp [MemberAccount.add_charge, h]
  · simp [MemberAccount.add_charge]
    intro hc
    exact absurd hc (not_lt.mpr h)

/-- Witness for C6: charging 2 onto balance 1 gives 3; charging -1 is a
no-op. -/
theorem c6_add_charge_spec_witness :
    MemberAccount.add_charge ⟨"Bob", 1⟩ 2 = ⟨"Bob", 3⟩ ∧
    MemberAccount.add_charge ⟨"Bob", 1⟩ (-1) = ⟨"Bob", 1⟩ := by
  constructor
  · have h := (c6_add_charge_spec ⟨"Bob", 1⟩ 2).1 (by norm_num)
    rw [h]
    norm_num
  · exact (c6_add_charge_spec ⟨"Bob", 1⟩ (-1)).2 (by norm_num)

/-- If `q * 100` is the integer `z`, then Python `round(q, 2)` is
`z/100`. -/
lemma round2_of_mul_hundred (q : ℚ) (z : ℤ) (h : q * 100 = (z : ℚ)) :
    round2 q = (z : ℚ) / 100 := by
  rw [round2, h, roundHalfEven_intCast]

/-- `return_item` keeps the injected policy. -/
lemma return_item_policy (lib : Library) (member : MemberAccount)
    (item : LoanItem) (d : Int) :
    (lib.return_item member item d).1.policy = lib.policy := by
  rw [return_item_eq]
  dsimp only
  split <;> rfl

/-- The member balance produced by `return_item`, as a single
conditional on the computed fee. -/
lemma return_item_balancePriv (lib : Library) (member : MemberAccount)
    (item : LoanItem) (d : Int) :
    (lib.return_item member item d).2.balancePriv =
      (if 0 < lib.policy.compute_fee item d then
         member.balancePriv + lib.policy.compute_fee item d
       else member.balancePriv) := by
  rw [return_item_eq]
  dsimp only
  split <;> rename_i h
  · rw [add_charge_balancePriv, if_pos h]
  · rfl

/-! ### Demo scenario (the `__main__` block of the source) -/

/-- `Book("Moby Dick", max_days=14)`. -/
def mobyDick : LoanItem := Book 0 "Moby Dick" 14

/-- `DVD("The Matrix", max_days=7)`. -/
def theMatrix : LoanItem := DVD 1 "The Matrix" 7

/-- `MemberAccount("Alice")`. -/
def alice0 : MemberAccount := MemberAccount.new "Alice"

/-- The library after both demo checkouts under `StandardPolicy`. -/
def demoLib : Library :=
  ((Library.new .standard).checkout alice0 mobyDick).checkout alice0 theMatrix

/-- `library.return_item(alice, moby, days_late=3)`. -/
def demoReturn1 : Library × MemberAccount := demoLib.return_item alice0 mobyDick 3

/-- `library.return_item(alice, matrix, days_late=3)`. -/
def demoReturn2 : Library × MemberAccount :=
  demoReturn1.1.return_item demoReturn1.2 theMatrix 3

/-- C7: in the demo scenario, the loan listing is
`["Moby Dick", "The Matrix"]`; returning Moby Dick three days late under
the standard policy charges 0.75 giving balance 0.75, and then returning
The Matrix three days late charges 2.25 giving balance 3.00. -/
theorem c7_demo_scenario :
    demoLib.list_loans alice0 = ["Moby Dick", "The Matrix"] ∧
    demoLib.policy.compute_fee mobyDick 3 = 0.75 ∧
    demoReturn1.2.balance = 0.75 ∧
    demoReturn1.1.policy.compute_fee theMatrix 3 = 2.25 ∧
    demoReturn2.2.balance = 3 := by
  have hpol : demoLib.policy = LateFeePolicy.standard := rfl
  have hfee1 : demoLib.policy.compute_fee mobyDick 3 = 3/4 := by
    rw [hpol]
    norm_num [LateFeePolicy.compute_fee, StandardPolicy.compute_fee, mobyDick, Book]
  have hpol1 : demoReturn1.1.policy = LateFeePolicy.standard := by
    show (demoLib.return_item alice0 mobyDick 3).1.policy = _
    rw [return_item_policy, hpol]
  have hfee2 : demoReturn1.1.policy.compute_fee theMatrix 3 = 9/4 := by
    rw [hpol1]
    norm_num [LateFeePolicy.compute_fee, StandardPolicy.compute_fee, theMatrix, DVD]
  have hb1 : demoReturn1.2.balancePriv = 3/4 := by
    show (demoLib.return_item alice0 mobyDick 3).2.balancePriv = 3/4
    rw [return_item_balancePriv, hfee1, if_pos (by norm_num : (0:ℚ) < 3/4)]
    norm_num [alice0, MemberAccount.new]
  have hb2 : demoReturn2.2.balancePriv = 3 := by
    show (demoReturn1.1.return_item demoReturn1.2 theMatrix 3).2.balancePriv = 3
    rw [return_item_balancePriv, hfee2, if_pos (by norm_num : (0:ℚ) < 9/4), hb1]
    norm_num
  refine ⟨by decide, by rw [hfee1]; norm_num, ?_, by rw [hfee2]; norm_num, ?_⟩
  · rw [MemberAccount.balance, hb1,
      round2_of_mul_hundred (3/4) 75 (by norm_num)]
    norm_num
  · rw [MemberAccount.balance, hb2,
      round2_of_mul_hundred 3 300 (by norm_num)]
    norm_num

/-! ### Loans-map lemmas -/

/-- Looking up the key just appended to: the old list (empty when the
key was absent) with the item appended. -/
lemma getLoans_appendLoan (L : LoansMap) (n : String) (item : LoanItem) :
    getLoans (appendLoan L n item) n = some ((getLoans L n).getD [] ++ [item]) := by
  induction L with
  | nil => simp [appendLoan, getLoans]
  | cons kv rest ih =>
    obtain ⟨k, v⟩ := kv
    by_cases h : k = n
    · simp [appendLoan, getLoans, h]
    · simp [appendLoan, getLoans, h, ih]

/-- `appendLoan` at one key does not disturb lookups of other keys. -/
lemma getLoans_appendLoan_other (L : LoansMap) (k n : String) (item : LoanItem)
    (h : k ≠ n) :
    getLoans (appendLoan L k item) n = getLoans L n := by
  induction L with
  | nil => simp [appendLoan, getLoans, h]
  | cons kv rest ih =>
    obtain ⟨k', v⟩ := kv
    by_cases h' : k' = k
    · simp [appendLoan, getLoans, h', h]
    · simp [appendLoan, getLoans, h', ih]

/-- `setLoans` never creates a key: an absent key stays absent. -/
lemma getLoans_setLoans_none (L : LoansMap) (k n : String)
    (items : List LoanItem) (h : getLoans L n = none) :
    getLoans (setLoans L k items) n = none := by
  induction L with
  | nil => simp [setLoans, getLoans]
  | cons kv rest ih =>
    obtain ⟨k', v⟩ := kv
    by_cases h' : k' = k
    · by_cases h'' : k' = n
      · rw [getLoans, if_pos h''] at h
        exact absurd h (by simp)
      · rw [getLoans, if_neg h''] at h
        rw [setLoans, if_pos h', getLoans, if_neg (h' ▸ h'')]
        exact h
    · by_cases h'' : k' = n
      · rw [getLoans, if_pos h''] at h
        exact absurd h (by simp)
      · rw [getLoans, if_neg h''] at h
        rw [setLoans, if_neg h', getLoans, if_neg h'']
        exact ih h

/-- C8: the loans dict is keyed by `member.name`, not by account object:
for two account objects with equal name, a checkout through the first is
visible in `list_loans` of the second, and `return_item` through either
account yields the same library state. -/
theorem c8_loans_keyed_by_name (lib : Library) (a1 a2 : MemberAccount)
    (item : LoanItem) (d : Int) (h : a1.name = a2.name) :
    (lib.checkout a1 item).list_loans a2 = lib.list_loans a2 ++ [item.title] ∧
    (lib.return_item a1 item d).1 = (lib.return_item a2 item d).1 := by
  constructor
  · simp [Library.checkout, Library.list_loans, ← h, getLoans_appendLoan]
  · rw [return_item_eq, return_item_eq]
    dsimp only
    rw [h]

/-- Witness for C8: two distinct account objects named "Alice" (balances
0 and 5) share one loan list. -/
theorem c8_loans_keyed_by_name_witness :
    (Library.checkout ⟨.standard, []⟩ ⟨"Alice", 0⟩ (Book 0 "B" 3)).list_loans
        ⟨"Alice", 5⟩ = ["B"] ∧
    (Library.return_item ⟨.standard, []⟩ ⟨"Alice", 0⟩ (Book 0 "B" 3) 0).1 =
      (Library.return_item ⟨.standard, []⟩ ⟨"Alice", 5⟩ (Book 0 "B" 3) 0).1 := by
  have h := c8_loans_keyed_by_name ⟨.standard, []⟩ ⟨"Alice", 0⟩ ⟨"Alice", 5⟩
    (Book 0 "B" 3) 0 rfl
  refine ⟨?_, h.2⟩
  rw [h.1]
  rfl

/-- C9: removal goes by object identity: an item whose `oid` differs
from every held item removes nothing — even when a held item has the
same title and `max_days` — while the fee is still computed and, when
positive, charged onto the member's balance. -/
theorem c9_identity_equality_removal (lib : Library) (member : MemberAccount)
    (item held : LoanItem) (d : Int)
    (hheld : held ∈ (getLoans lib.loans member.name).getD [])
    (htitle : item.title = held.title)
    (hdays : item.max_days = held.max_days)
    (hfresh : ∀ i ∈ (getLoans lib.loans member.name).getD [], i.oid ≠ item.oid) :
    (lib.return_item member item d).1 = lib ∧
    (lib.return_item member item d).2.balancePriv =
      (if 0 < lib.policy.compute_fee item d then
         member.balancePriv + lib.policy.compute_fee item d
       else member.balancePriv) := by
  have hany : (((getLoans lib.loans member.name).getD []).any
      (fun i => sameObject i item)) = false := by
    simp only [List.any_eq_false, sameObject, beq_iff_eq]
    exact hfresh
  constructor
  · rw [return_item_eq]
    dsimp only
    rw [hany]
    rfl
  · exact return_item_balancePriv lib member item d

/-- Witness for C9: returning a freshly built copy of the held book
(same title and loan period, different object) removes nothing and still
charges 0.50 for two late days. -/
theorem c9_identity_equality_removal_witness :
    (Library.return_item ⟨.standard, [("Ann", [Book 0 "B" 14])]⟩ ⟨"Ann", 0⟩
        (Book 1 "B" 14) 2).1 = ⟨.standard, [("Ann", [Book 0 "B" 14])]⟩ ∧
    (Library.return_item ⟨.standard, [("Ann", [Book 0 "B" 14])]⟩ ⟨"Ann", 0⟩
        (Book 1 "B" 14) 2).2.balancePriv = 1/2 := by
  have hfresh : ∀ i ∈ (getLoans [("Ann", [Book 0 "B" 14])] "Ann").getD [],
      i.oid ≠ (Book 1 "B" 14).oid := by
    intro i hi
    have : i = Book 0 "B" 14 := by simpa [getLoans] using hi
    rw [this]
    decide
  have hheld : Book 0 "B" 14 ∈ (getLoans [("Ann", [Book 0 "B" 14])] "Ann").getD [] := by
    simp [getLoans]
  have h := c9_identity_equality_removal ⟨.standard, [("Ann", [Book 0 "B" 14])]⟩
    ⟨"Ann", 0⟩ (Book 1 "B" 14) (Book 0 "B" 14) 2 hheld rfl rfl hfresh
  refine ⟨h.1, ?_⟩
  rw [h.2]
  norm_num [LateFeePolicy.compute_fee, StandardPolicy.compute_fee, Book]

/-! ### Library operation sequences (for the unknown-member claim) -/

/-- One call on a `Library` that can touch the loans dict. -/
inductive LibOp
  | checkoutOp (member : MemberAccount) (item : LoanItem)
  | returnOp (member : MemberAccount) (item : LoanItem) (d : Int)

/-- Apply one `Library` call (the member returned by `return_item` plays
no role for the loans dict). -/
def applyLibOp (lib : Library) : LibOp → Library
  | .checkoutOp m i => lib.checkout m i
  | .returnOp m i d => (lib.return_item m i d).1

/-- Run a sequence of `checkout` / `return_item` calls. -/
def runLibOps (lib : Library) : List LibOp → Library
  | [] => lib
  | op :: rest => runLibOps (applyLibOp lib op) rest

/-- `op` is a checkout for the member name `n`. -/
def LibOp.checksOutFor (op : LibOp) (n : String) : Prop :=
  ∃ m i, op = .checkoutOp m i ∧ m.name = n

/-- A name no call checks out for never gains a key in the loans dict. -/
lemma getLoans_applyLibOp_none (lib : Library) (op : LibOp) (n : String)
    (hop : ¬ op.checksOutFor n) (h : getLoans lib.loans n = none) :
    getLoans (applyLibOp lib op).loans n = none := by
  cases op with
  | checkoutOp m i =>
    have hne : m.name ≠ n := fun he => hop ⟨m, i, rfl, he⟩
    rw [applyLibOp, Library.checkout]
    exact (getLoans_appendLoan_other lib.loans m.name n i hne).trans h
  | returnOp m i d =>
    rw [applyLibOp, return_item_eq]
    dsimp only
    split
    · exact getLoans_setLoans_none lib.loans m.name n _ h
    · exact h

lemma getLoans_runLibOps_none (ops : List LibOp) (lib : Library) (n : String)
    (hops : ∀ op ∈ ops, ¬ op.checksOutFor n) (h : getLoans lib.loans n = none) :
    getLoans (runLibOps lib ops).loans n = none := by
  induction ops generalizing lib with
  | nil => exact h
  | cons op rest ih =>
    exact ih (applyLibOp lib op)
      (fun o ho => hops o (List.mem_cons_of_mem op ho))
      (getLoans_applyLibOp_none lib op n (hops op (List.mem_cons_self op rest)) h)

/-- C10: for a member whose name never appeared in any checkout of the
call sequence, `list_loans` returns the empty sequence and `return_item`
leaves the loans dict unchanged (both calls are total — no failure). -/
theorem c10_unknown_member (p : LateFeePolicy) (ops : List LibOp)
    (member : MemberAccount) (item : LoanItem) (d : Int)
    (hops : ∀ op ∈ ops, ¬ op.checksOutFor member.name) :
    (runLibOps (Library.new p) ops).list_loans member = [] ∧
    ((runLibOps (Library.new p) ops).return_item member item d).1.loans =
      (runLibOps (Library.new p) ops).loans := by
  have h : getLoans (runLibOps (Library.new p) ops).loans member.name = none :=
    getLoans_runLibOps_none ops (Library.new p) member.name hops rfl
  constructor
  · rw [Library.list_loans, h]
    rfl
  · rw [return_item_eq]
    dsimp only
    rw [h]
    rfl

/-- Witness for C10: after checking out a book for "Ann", the member
"Zoe" has no loans and returning through "Zoe" changes no loan list. -/
theorem c10_unknown_member_witness :
    (runLibOps (Library.new .standard)
        [.checkoutOp ⟨"Ann", 0⟩ (Book 0 "B" 14)]).list_loans ⟨"Zoe", 0⟩ = [] ∧
    ((runLibOps (Library.new .standard)
        [.checkoutOp ⟨"Ann", 0⟩ (Book 0 "B" 14)]).return_item ⟨"Zoe", 0⟩
        (Book 1 "C" 7) 4).1.loans =
      (runLibOps (Library.new .standard)
        [.checkoutOp ⟨"Ann", 0⟩ (Book 0 "B" 14)]).loans := by
  refine c10_unknown_member .standard [.checkoutOp ⟨"Ann", 0⟩ (Book 0 "B" 14)]
    ⟨"Zoe", 0⟩ (Book 1 "C" 7) 4 ?_
  intro op hop
  have : op = .checkoutOp ⟨"Ann", 0⟩ (Book 0 "B" 14) := by simpa using hop
  rw [this]
  rintro ⟨m, i, heq, hname⟩
  cases heq
  exact absurd hname (by decide)
